import Mathlib

/-!
Verification development for the dash-lang register VM.

Part 1 — Instruction codec, translated from `src/vm/opcodes.h`.
`vm_instruction` is a 32-bit word (`instr_size = 32`), registers use 5 bits
(`__regb`), opcodes 4 bits (`__opcb`).  The extraction and construction macros
are transcribed literally; all arithmetic is on `Nat` (the legal operand
ranges keep every encoding below `2^32`, so no wraparound occurs).
-/

namespace DashVm

/-- Constant `instr_size` from opcodes.h: `sizeof(vm_instruction) * 8` with a 32-bit word. -/
def instr_size : Nat := 32

/-- Macro `#define get_opcode(instr) ((instr & 0xF0000000) >> (instr_size - __opcb))` -/
def get_opcode (instr : Nat) : Nat := (instr &&& 0xF0000000) >>> 28

/-- Macro `#define get_arg_r0(instr) ((instr & 0x0F800000) >> (instr_size - (__opcb + __regb)))` -/
def get_arg_r0 (instr : Nat) : Nat := (instr &&& 0x0F800000) >>> 23

/-- Macro `#define get_arg_r1(instr) ((instr & 0x001F0000) >> (instr_size - (__opcb + 2 * __regb)))` -/
def get_arg_r1 (instr : Nat) : Nat := (instr &&& 0x001F0000) >>> 18

/-- Macro `#define get_arg_r2(instr) ((instr & 0x0000F800) >> (instr_size - (__opcb + 3 * __regb)))` -/
def get_arg_r2 (instr : Nat) : Nat := (instr &&& 0x0000F800) >>> 13

/-- Macro `#define get_arg_i(instr) (instr & 0x007FFFFF)` -/
def get_arg_i (instr : Nat) : Nat := instr &&& 0x007FFFFF

/-- Macro `#define instr_ri(op, reg, i)` from opcodes.h. -/
def instr_ri (op reg i : Nat) : Nat :=
  (op <<< 28) + (reg <<< 23) + i

/-- Macro `#define instr_rrr(op, reg0, reg1, reg2)` from opcodes.h. -/
def instr_rrr (op reg0 reg1 reg2 : Nat) : Nat :=
  (op <<< 28) + (reg0 <<< 23) + (reg1 <<< 18) + (reg2 <<< 13)

/-- Opcode numbers from the `vm_opcode` enum in opcodes.h. -/
def OP_HALT : Nat := 0
def OP_LOADi : Nat := 1
def OP_LOADs : Nat := 2
def OP_LOADsd : Nat := 3
def OP_LOADc : Nat := 4
def OP_ADD : Nat := 5
def OP_SUB : Nat := 6
def OP_MOVE : Nat := 7
def OP_CALL : Nat := 8
def OP_CALLCL : Nat := 9
def OP_RET : Nat := 10
def OP_MAKECL : Nat := 11
def OP_JMP : Nat := 12
def OP_MATCH : Nat := 13

/-- Macro `#define op_loadi(r0, i) (instr_ri(OP_LOADi, r0, i))` -/
def op_loadi (r0 i : Nat) : Nat := instr_ri OP_LOADi r0 i

/-- Macro `#define op_loads(r0, i) (instr_ri(OP_LOADs, r0, i))` -/
def op_loads (r0 i : Nat) : Nat := instr_ri OP_LOADs r0 i

/-- Macro `#define op_loadsd(r0, i) (instr_ri(OP_LOADsd, r0, i))` -/
def op_loadsd (r0 i : Nat) : Nat := instr_ri OP_LOADsd r0 i

/-- Macro `#define op_loadc(r0, i) (instr_ri(OP_LOADc, r0, i))` -/
def op_loadc (r0 i : Nat) : Nat := instr_ri OP_LOADc r0 i

/-- Macro `#define op_add(r0, r1, r2) (instr_rrr(OP_ADD, r0, r1, r2))` -/
def op_add (r0 r1 r2 : Nat) : Nat := instr_rrr OP_ADD r0 r1 r2

/-- Macro `#define op_sub(r0, r1, r2) (instr_rrr(OP_SUB, r0, r1, r2))` -/
def op_sub (r0 r1 r2 : Nat) : Nat := instr_rrr OP_SUB r0 r1 r2

/-- Macro `#define op_halt (instr_ri(OP_HALT, 0, 0))` -/
def op_halt : Nat := instr_ri OP_HALT 0 0

/-- Macro `#define op_move(r0, r1) (instr_rrr(OP_MOVE, r0, r1, 0))` -/
def op_move (r0 r1 : Nat) : Nat := instr_rrr OP_MOVE r0 r1 0

/-- Macro `#define op_call(r0, fr, n) (instr_rrr(OP_CALL, r0, fr, n))` -/
def op_call (r0 fr n : Nat) : Nat := instr_rrr OP_CALL r0 fr n

/-- Macro `#define op_callcl(r0, fr, n) (instr_rrr(OP_CALLCL, r0, fr, n))` -/
def op_callcl (r0 fr n : Nat) : Nat := instr_rrr OP_CALLCL r0 fr n

/-- Macro `#define op_ret (instr_ri(OP_RET, 0, 0))` -/
def op_ret : Nat := instr_ri OP_RET 0 0

/-- Macro `#define op_makecl(r0, fr, n) (instr_rrr(OP_MAKECL, r0, fr, n))` -/
def op_makecl (r0 fr n : Nat) : Nat := instr_rrr OP_MAKECL r0 fr n

/-- Macro `#define op_jmp(n) (instr_ri(OP_JMP, 0, n))` -/
def op_jmp (n : Nat) : Nat := instr_ri OP_JMP 0 n

/-- Macro `#define op_match(r1, r2, r3) (instr_rrr(OP_MATCH, r1, r2, r3))` -/
def op_match (r1 r2 r3 : Nat) : Nat := instr_rrr OP_MATCH r1 r2 r3

/-!
Part 2 — Value tagging.

Modelled from the spec: `val`, `from_val`, `type_of_value` and the
`vm_tag_*`/`vm_type_*` constants are declared in `vm.h` and implemented in
`vm.c`, neither of which is under `src/`.  The spec says the source "packs
tag+payload into a single integer" with an exact, total round trip over the
representable payload range.  We model a 32-bit word with the tag in the top
four bits and a 28-bit payload; `vm_tag_number = 0`, forced by the tests
(`adds_two_numbers` compares `ADD`'s result with the raw integer 37).
The `vm_type_*` codes coincide with the tag codes.
-/

def vm_tag_number : Nat := 0
def vm_tag_symbol : Nat := 1
def vm_tag_data_symbol : Nat := 2

def vm_type_number : Nat := 0
def vm_type_symbol : Nat := 1
def vm_type_data_symbol : Nat := 2

/-- Payload width of a packed value: 28 bits below the 4-bit tag. -/
def payload_bits : Nat := 28

/-- Modelled from the spec: `val(payload, tag)` packs a tagged value. -/
def val (payload tag : Nat) : Nat := tag % 16 * 2 ^ payload_bits + payload % 2 ^ payload_bits

/-- Modelled from the spec: `from_val(v, tag)` extracts the payload. -/
def from_val (v _tag : Nat) : Nat := v % 2 ^ payload_bits

/-- Modelled from the spec: `type_of_value(v)` reads the tag bits. -/
def type_of_value (v : Nat) : Nat := v / 2 ^ payload_bits

/-!
Part 3 — The virtual machine.

Modelled from the spec: `vm_execute` and the whole execution engine live in
`vm.c`/`vm.h`, which are not under `src/`.  The model below follows
§3–§4 of the spec (frame stack, call/closure engine, pattern matcher,
fetch-decode-execute loop) and, where the spec and the repository's own
tests in `src/vm/spec/vm_spec.c` disagree, follows the tests:
  * `LOADsd r0,i` stores `val(i, vm_tag_data_symbol)` — the pool index
    tagged as a data symbol — as asserted by `loads_a_data_symbol`
    (empty constant pool, result `val(1, vm_tag_data_symbol)`); the
    compound record is dereferenced later, during matching.
  * In `data_symbol_header(a, b)` the second argument is the field count
    (the tests place `b` entries after each header); the first is the
    record's tag id.
Instructions are decoded with the `get_*` macros of `opcodes.h`.
The constant pool is a read-only sequence of packed values and the three
structural markers; the matcher carries the fuel `match_fuel pool`,
sufficient for every acyclic pool (each recursion step moves to a further
pattern-side position).  Call depth is bounded (`StackOverflow` beyond it) and the
executor carries explicit fuel; `fuel_bound` exceeds the interpreter's
potential function, so `vm_execute` never times out.
-/

/-- Number of registers in a frame (5-bit register indices). -/
def reg_count : Nat := 32

/-- A runtime value: a packed tagged word, or a closure (entry address plus
captured values, produced only by `MAKECL`). -/
inductive Value where
  | word (w : Nat)
  | closure (entry : Nat) (captured : List Value)

/-- A constant-pool entry: a packed value or one of the three structural
markers (`match_header`, `data_symbol_header`, `match_var`). -/
inductive PoolEntry where
  | value (w : Nat)
  | matchHeader (cases : Nat)
  | dataSymbolHeader (tag fields : Nat)
  | matchVar (slot : Nat)

/-- Pool marker `match_header(n)`: starts an `n`-case pattern table. -/
def match_header (n : Nat) : PoolEntry := .matchHeader n

/-- Pool marker `data_symbol_header(tag, fields)`: starts a compound record
with `fields` entries following it. -/
def data_symbol_header (tag fields : Nat) : PoolEntry :=
  .dataSymbolHeader tag fields

/-- Pool marker `match_var(slot)`: a binding field inside a pattern. -/
def match_var (slot : Nat) : PoolEntry := .matchVar slot

/-- A call frame: register bank, the caller register receiving this frame's
result on `RET`, and this frame's program counter. -/
structure Frame where
  regs : List Value
  retReg : Nat
  pc : Nat

/-- Read a register (out-of-range reads see the default word 0; decoded
register indices are always below 32). -/
def getReg (f : Frame) (r : Nat) : Value := f.regs.getD r (.word 0)

/-- Fault kinds from §7 of the spec. -/
inductive Fault where
  | encodingError
  | typeError
  | tagMismatch
  | stackOverflow
  | stackUnderflow
  | noMatchingCase
  | indexOutOfRange
deriving DecidableEq

/-- A pending obligation of the structural matcher: compare two packed words,
compare two compound records located at pool positions, or compare `count`
record fields pointwise. -/
inductive MatchTask where
  | word (pat subj : Nat)
  | compound (pIdx sIdx : Nat)
  | fields (pIdx sIdx count : Nat)

/-- The structural pattern matcher, one recursion on explicit `fuel`
(decremented at every recursive call, so the definition is structural and
computes by reduction).
  * `word pat subj`: data-symbol tags on both sides are dereferenced into the
    pool and the compound records compared recursively; any other combination
    matches iff the packed words are equal (same tag, same payload).
  * `compound pIdx sIdx`: both positions must hold `data_symbol_header`s with
    equal tag and field count, and the fields must match pointwise.
  * `fields pIdx sIdx count`: a `match_var slot` pattern field always matches
    and records the binding `(slot, subject field word)`.
Returns the collected bindings, or `none` on mismatch (or on fuel
exhaustion, which `match_fuel` rules out for acyclic pools). -/
def matchStep (pool : List PoolEntry) : Nat → MatchTask → Option (List (Nat × Nat))
  | 0, _ => none
  | fuel + 1, .word pat subj =>
    if type_of_value pat = vm_tag_data_symbol ∧
        type_of_value subj = vm_tag_data_symbol then
      matchStep pool fuel (.compound (from_val pat vm_tag_data_symbol)
        (from_val subj vm_tag_data_symbol))
    else if pat = subj then some [] else none
  | fuel + 1, .compound pIdx sIdx =>
    match pool[pIdx]?, pool[sIdx]? with
    | some (.dataSymbolHeader pt pa), some (.dataSymbolHeader st sa) =>
      if pt = st ∧ pa = sa then
        matchStep pool fuel (.fields (pIdx + 1) (sIdx + 1) pa)
      else none
    | _, _ => none
  | _ + 1, .fields _ _ 0 => some []
  | fuel + 1, .fields pIdx sIdx (count + 1) =>
    match pool[pIdx]?, pool[sIdx]? with
    | some pe, some (.value sw) =>
      match pe with
      | .value pw =>
        match matchStep pool fuel (.word pw sw),
            matchStep pool fuel (.fields (pIdx + 1) (sIdx + 1) count) with
        | some bs, some rest => some (bs ++ rest)
        | _, _ => none
      | .matchVar slot =>
        match matchStep pool fuel (.fields (pIdx + 1) (sIdx + 1) count) with
        | some rest => some ((slot, sw) :: rest)
        | none => none
      | _ => none
    | _, _ => none

/-- Matcher fuel used by `MATCH`: in an acyclic pool every recursion path
visits distinct pattern-side positions, so its length is under
`3 * pool.length + 3`. -/
def match_fuel (pool : List PoolEntry) : Nat := 3 * pool.length + 3

/-- Match one packed pattern word against one packed subject word. -/
def matchWord (fuel : Nat) (pool : List PoolEntry) (pat subj : Nat) :
    Option (List (Nat × Nat)) :=
  matchStep pool fuel (.word pat subj)

/-- Try case `i` of the pattern table headed at pool position `tbl`: the case
pattern is the single packed word at position `tbl + 1 + i`. -/
def caseMatch (fuel : Nat) (pool : List PoolEntry) (subj tbl i : Nat) :
    Option (List (Nat × Nat)) :=
  match pool[tbl + 1 + i]? with
  | some (.value pw) => matchWord fuel pool pw subj
  | _ => none

/-- Scan `remaining` cases starting at case index `i` and return the first
matching case's absolute index together with its bindings. -/
def findCaseFrom (fuel : Nat) (pool : List PoolEntry) (subj tbl : Nat) :
    Nat → Nat → Option (Nat × List (Nat × Nat))
  | 0, _ => none
  | remaining + 1, i =>
    match caseMatch fuel pool subj tbl i with
    | some bs => some (i, bs)
    | none => findCaseFrom fuel pool subj tbl remaining (i + 1)

/-- Write the collected bindings into the register bank: binding
`(slot, w)` stores the packed word `w` into register `base + slot`,
overwriting the previous contents; a target outside the register bank is an
`IndexOutOfRange` fault (`none`). -/
def applyBindings (base : Nat) (bs : List (Nat × Nat)) (regs : List Value) :
    Option (List Value) :=
  match bs with
  | [] => some regs
  | (slot, w) :: rest =>
    if base + slot < reg_count then
      applyBindings base rest (regs.set (base + slot) (.word w))
    else none

/-- The effect of one decoded instruction, before it is applied to the frame
stack.  `setRegs regs adv` replaces the register bank of the current frame
and advances `pc` by `1 + adv`; `push` creates a callee frame; `pop` returns
from the current frame. -/
inductive Act where
  | setRegs (regs : List Value) (adv : Nat)
  | push (entry : Nat) (regs : List Value) (retReg : Nat)
  | pop
  | halt
  | fault (e : Fault)

/-- Registers `fr+1 .. fr+n` of frame `f` — the argument block of
`CALL`/`CALLCL` and the capture block of `MAKECL`. -/
def collectArgs (f : Frame) (fr n : Nat) : List Value :=
  (List.range n).map fun j => getReg f (fr + 1 + j)

/-- The register bank of a freshly pushed frame: register 0 is left at the
default, registers `1..n` hold the `n` arguments, registers `n+1..n+k` hold
the `k` captured values, the remainder is default-initialized. -/
def mkFrameRegs (args captured : List Value) : List Value :=
  let l := Value.word 0 :: (args ++ captured)
  l ++ List.replicate (reg_count - l.length) (.word 0)

/-- Decode and execute the instruction word `w` in frame `f`, producing the
action to apply to the frame stack.  Follows the per-opcode table of §4.3
and the call/closure engine of §4.4 of the spec, with `LOADsd` as pinned by
the test `loads_a_data_symbol`. -/
def exec1 (pool : List PoolEntry) (f : Frame) (w : Nat) : Act :=
  match get_opcode w with
  | 0 => .halt
  | 1 => .setRegs (f.regs.set (get_arg_r0 w)
      (.word (val (get_arg_i w) vm_tag_number))) 0
  | 2 => .setRegs (f.regs.set (get_arg_r0 w)
      (.word (val (get_arg_i w) vm_tag_symbol))) 0
  | 3 => .setRegs (f.regs.set (get_arg_r0 w)
      (.word (val (get_arg_i w) vm_tag_data_symbol))) 0
  | 4 =>
    match pool[get_arg_i w]? with
    | some (.value cw) => .setRegs (f.regs.set (get_arg_r0 w) (.word cw)) 0
    | _ => .fault .indexOutOfRange
  | 5 =>
    match getReg f (get_arg_r1 w), getReg f (get_arg_r2 w) with
    | .word a, .word b =>
      if type_of_value a = vm_tag_number ∧ type_of_value b = vm_tag_number then
        .setRegs (f.regs.set (get_arg_r0 w)
          (.word (val (from_val a vm_tag_number + from_val b vm_tag_number)
            vm_tag_number))) 0
      else .fault .typeError
    | _, _ => .fault .typeError
  | 6 =>
    match getReg f (get_arg_r1 w), getReg f (get_arg_r2 w) with
    | .word a, .word b =>
      if type_of_value a = vm_tag_number ∧ type_of_value b = vm_tag_number then
        .setRegs (f.regs.set (get_arg_r0 w)
          (.word (val (from_val a vm_tag_number - from_val b vm_tag_number)
            vm_tag_number))) 0
      else .fault .typeError
    | _, _ => .fault .typeError
  | 7 => .setRegs (f.regs.set (get_arg_r0 w) (getReg f (get_arg_r1 w))) 0
  | 8 =>
    match getReg f (get_arg_r1 w) with
    | .word aw =>
      .push (from_val aw vm_tag_number)
        (mkFrameRegs (collectArgs f (get_arg_r1 w) (get_arg_r2 w)) [])
        (get_arg_r0 w)
    | .closure _ _ => .fault .typeError
  | 9 =>
    match getReg f (get_arg_r1 w) with
    | .closure entry captured =>
      .push entry
        (mkFrameRegs (collectArgs f (get_arg_r1 w) (get_arg_r2 w)) captured)
        (get_arg_r0 w)
    | .word _ => .fault .typeError
  | 10 => .pop
  | 11 =>
    match getReg f (get_arg_r1 w) with
    | .word aw =>
      .setRegs (f.regs.set (get_arg_r0 w)
        (.closure (from_val aw vm_tag_number)
          (collectArgs f (get_arg_r1 w) (get_arg_r2 w)))) 0
    | .closure _ _ => .fault .typeError
  | 12 => .setRegs f.regs (get_arg_i w)
  | 13 =>
    match getReg f (get_arg_r0 w), getReg f (get_arg_r1 w) with
    | .word sw, .word iw =>
      match pool[from_val iw vm_tag_number]? with
      | some (.matchHeader n) =>
        match findCaseFrom (match_fuel pool) pool sw
            (from_val iw vm_tag_number) n 0 with
        | some (i, bs) =>
          match applyBindings (get_arg_r2 w) bs f.regs with
          | some regs => .setRegs regs i
          | none => .fault .indexOutOfRange
        | none => .fault .noMatchingCase
      | _ => .fault .encodingError
    | _, _ => .fault .typeError
  | _ => .fault .encodingError

/-- Result of one machine step. -/
inductive StepRes where
  | next (frames : List Frame)
  | halted (v : Value)
  | faulted (e : Fault)

/-- Apply an action to the frame stack (`f` is the current frame, `rest` the
frames below it).  `push` checks the call-depth bound and stores the return
`pc` in the caller; `pop` writes the callee's register 0 into the caller's
recorded return register; `halt` surfaces register 0 of the outermost
frame. -/
def applyAct (maxDepth : Nat) (f : Frame) (rest : List Frame) : Act → StepRes
  | .setRegs regs adv =>
    .next (⟨regs, f.retReg, f.pc + 1 + adv⟩ :: rest)
  | .push entry regs retReg =>
    if maxDepth ≤ (f :: rest).length then .faulted .stackOverflow
    else
      .next (⟨regs, retReg, entry⟩ :: ⟨f.regs, f.retReg, f.pc + 1⟩ :: rest)
  | .pop =>
    match rest with
    | [] => .faulted .stackUnderflow
    | g :: rest =>
      .next (⟨g.regs.set f.retReg (getReg f 0), g.retReg, g.pc⟩ :: rest)
  | .halt => .halted (getReg (rest.getLastD f) 0)
  | .fault e => .faulted e

/-- One fetch-decode-execute step of the machine. -/
def stepVm (prog : List Nat) (pool : List PoolEntry) (maxDepth : Nat)
    (frames : List Frame) : StepRes :=
  match frames with
  | [] => .faulted .stackUnderflow
  | f :: rest =>
    match prog[f.pc]? with
    | none => .faulted .indexOutOfRange
    | some w => applyAct maxDepth f rest (exec1 pool f w)

/-- Outcome of running the machine with bounded fuel. -/
inductive Outcome where
  | halted (v : Value)
  | faulted (e : Fault)
  | timeout

/-- Run at most `fuel` machine steps. -/
def runFuel (prog : List Nat) (pool : List PoolEntry) (maxDepth : Nat) :
    Nat → List Frame → Outcome
  | 0, _ => .timeout
  | fuel + 1, frames =>
    match stepVm prog pool maxDepth frames with
    | .next frames => runFuel prog pool maxDepth fuel frames
    | .halted v => .halted v
    | .faulted e => .faulted e

/-- The initial frame stack: one frame, all registers default, `pc = 0`. -/
def initFrames : List Frame :=
  [⟨List.replicate reg_count (.word 0), 0, 0⟩]

/-- Default call-depth bound of the model. -/
def max_depth : Nat := 16

/-- Fuel strictly exceeding the interpreter's potential function for the
initial state, so execution can never time out (proved below). -/
def fuel_bound (prog : List Nat) : Nat :=
  prog.length * (prog.length + 1) ^ max_depth + 1

/-- Modelled from the spec: `vm_execute(program, const_table)` runs the
fetch-decode-execute loop from the initial state until halt or fault. -/
def vm_execute (prog : List Nat) (pool : List PoolEntry) : Outcome :=
  runFuel prog pool max_depth (fuel_bound prog) initFrames

/-!
Termination of the execution loop.  Every `next` step strictly decreases a
potential: instructions within a frame only move `pc` forward (`JMP` and
`MATCH` offsets are unsigned), `RET` discards a frame, and a call trades one
step of the caller for a whole new frame one level deeper — weighting frames
geometrically by depth makes the trade strictly decreasing, and depth is
bounded by the `StackOverflow` guard.
-/

/-- Potential of a frame stack: a frame with `d` frames below it contributes
its remaining instruction count weighted by `(L+1) ^ (maxDepth - d)`. -/
def framePotential (L maxDepth : Nat) : List Frame → Nat
  | [] => 0
  | f :: rest =>
    (L - f.pc) * (L + 1) ^ (maxDepth - rest.length) + framePotential L maxDepth rest


/-!  Proofs.  -/

/-!  Arithmetic characterizations of the extraction macros.  -/

/-- Masking with a shifted block of ones isolates a bit field. -/
lemma land_ones_shifted (x a b : Nat) :
    x &&& ((2 ^ a - 1) <<< b) = (x >>> b % 2 ^ a) <<< b := by
  apply Nat.eq_of_testBit_eq
  intro j
  simp only [Nat.testBit_land, Nat.testBit_shiftLeft, Nat.testBit_mod_two_pow,
    Nat.testBit_shiftRight, Nat.testBit_two_pow_sub_one]
  by_cases hbj : b ≤ j
  · have : b + (j - b) = j := by omega
    simp [hbj, this, Bool.and_comm]
  · simp [hbj]

lemma get_opcode_eq (x : Nat) : get_opcode x = x / 2 ^ 28 % 2 ^ 4 := by
  have hm : (0xF0000000 : Nat) = (2 ^ 4 - 1) <<< 28 := by decide
  rw [get_opcode, hm, land_ones_shifted, Nat.shiftLeft_shiftRight,
    Nat.shiftRight_eq_div_pow]

lemma get_arg_r0_eq (x : Nat) : get_arg_r0 x = x / 2 ^ 23 % 2 ^ 5 := by
  have hm : (0x0F800000 : Nat) = (2 ^ 5 - 1) <<< 23 := by decide
  rw [get_arg_r0, hm, land_ones_shifted, Nat.shiftLeft_shiftRight,
    Nat.shiftRight_eq_div_pow]

lemma get_arg_r1_eq (x : Nat) : get_arg_r1 x = x / 2 ^ 16 % 2 ^ 5 / 2 ^ 2 := by
  have hm : (0x001F0000 : Nat) = (2 ^ 5 - 1) <<< 16 := by decide
  rw [get_arg_r1, hm, land_ones_shifted, Nat.shiftLeft_eq,
    Nat.shiftRight_eq_div_pow, Nat.shiftRight_eq_div_pow]
  have h18 : (2 : Nat) ^ 18 = 2 ^ 16 * 2 ^ 2 := by decide
  rw [h18, ← Nat.div_div_eq_div_mul, Nat.mul_div_cancel _ (by positivity)]

lemma get_arg_r2_eq (x : Nat) : get_arg_r2 x = x / 2 ^ 11 % 2 ^ 5 / 2 ^ 2 := by
  have hm : (0x0000F800 : Nat) = (2 ^ 5 - 1) <<< 11 := by decide
  rw [get_arg_r2, hm, land_ones_shifted, Nat.shiftLeft_eq,
    Nat.shiftRight_eq_div_pow, Nat.shiftRight_eq_div_pow]
  have h13 : (2 : Nat) ^ 13 = 2 ^ 11 * 2 ^ 2 := by decide
  rw [h13, ← Nat.div_div_eq_div_mul, Nat.mul_div_cancel _ (by positivity)]

lemma get_arg_i_eq (x : Nat) : get_arg_i x = x % 2 ^ 23 := by
  have hm : (0x007FFFFF : Nat) = 2 ^ 23 - 1 := by decide
  rw [get_arg_i, hm, Nat.and_pow_two_sub_one_eq_mod]

lemma instr_rrr_eq (op r0 r1 r2 : Nat) :
    instr_rrr op r0 r1 r2 =
      op * 2 ^ 28 + r0 * 2 ^ 23 + r1 * 2 ^ 18 + r2 * 2 ^ 13 := by
  simp [instr_rrr, Nat.shiftLeft_eq]

lemma instr_ri_eq (op r0 i : Nat) :
    instr_ri op r0 i = op * 2 ^ 28 + r0 * 2 ^ 23 + i := by
  simp [instr_ri, Nat.shiftLeft_eq]

/-- Decoding an `instr_rrr` encoding: opcode and `r0` come back intact, while
the mismatched masks in `get_arg_r1`/`get_arg_r2` recover only the low three
bits of `r1` and `r2`. -/
lemma decode_instr_rrr (op r0 r1 r2 : Nat)
    (hop : op < 16) (h0 : r0 < 32) (h1 : r1 < 32) (h2 : r2 < 32) :
    get_opcode (instr_rrr op r0 r1 r2) = op ∧
    get_arg_r0 (instr_rrr op r0 r1 r2) = r0 ∧
    get_arg_r1 (instr_rrr op r0 r1 r2) = r1 % 8 ∧
    get_arg_r2 (instr_rrr op r0 r1 r2) = r2 % 8 := by
  rw [get_opcode_eq, get_arg_r0_eq, get_arg_r1_eq, get_arg_r2_eq, instr_rrr_eq]
  norm_num
  omega

/-- Decoding an `instr_ri` encoding recovers all three components exactly. -/
lemma decode_instr_ri (op r0 i : Nat)
    (hop : op < 16) (h0 : r0 < 32) (hi : i < 2 ^ 23) :
    get_opcode (instr_ri op r0 i) = op ∧
    get_arg_r0 (instr_ri op r0 i) = r0 ∧
    get_arg_i (instr_ri op r0 i) = i := by
  rw [get_opcode_eq, get_arg_r0_eq, get_arg_i_eq, instr_ri_eq]
  norm_num
  omega

/-- The construction macro really does place `r1` at bits 22:18 and `r2` at
bits 17:13 of the word. -/
lemma instr_rrr_layout (op r0 r1 r2 : Nat)
    (h1 : r1 < 32) (h2 : r2 < 32) :
    instr_rrr op r0 r1 r2 >>> 18 % 2 ^ 5 = r1 ∧
    instr_rrr op r0 r1 r2 >>> 13 % 2 ^ 5 = r2 ∧
    instr_rrr op r0 r1 r2 % 2 ^ 13 = 0 := by
  rw [instr_rrr_eq, Nat.shiftRight_eq_div_pow, Nat.shiftRight_eq_div_pow]
  norm_num
  omega

/-- C3: for every payload below `2^28` and every tag among `Number`, `Symbol`
and `DataSymbol`, `from_val (val payload tag) tag = payload` and
`type_of_value (val payload tag)` is the type code matching the tag. -/
theorem tag_payload_roundtrip (p t : Nat) (hp : p < 2 ^ 28)
    (ht : t = vm_tag_number ∨ t = vm_tag_symbol ∨ t = vm_tag_data_symbol) :
    from_val (val p t) t = p ∧ type_of_value (val p t) = t := by
  have ht16 : t < 16 := by
    rcases ht with h | h | h <;> simp [h, vm_tag_number, vm_tag_symbol, vm_tag_data_symbol]
  unfold from_val val type_of_value payload_bits
  omega

/-- Witness for C3 at payload 44 and the number tag (mirrors the repository
test `applies_a_number_tag_to_a_value`). -/
theorem tag_payload_roundtrip_witness :
    44 < 2 ^ 28 ∧
    (from_val (val 44 vm_tag_number) vm_tag_number = 44 ∧
      type_of_value (val 44 vm_tag_number) = vm_tag_number) :=
  ⟨by decide, tag_payload_roundtrip 44 vm_tag_number (by decide) (Or.inl rfl)⟩

/-!  Claims C1, C2 and C10 about the codec.  -/

/-- Counterexample to C1 as stated: with `r1 = 8` (legal, below 32) the
decode of the register form does not return the original operand —
`get_arg_r1 (instr_rrr op r0 8 r2)` yields `0`, not `8`. -/
theorem codec_roundtrip_counterexample :
    (8 : Nat) < 32 ∧ get_arg_r1 (instr_rrr 5 3 8 2) = 0 ∧ (0 : Nat) ≠ 8 := by
  refine ⟨by decide, ?_, by decide⟩
  decide

/-- C1 (amended): the immediate-form round trip is exact, and in the register
form `get_opcode`/`get_arg_r0` invert the encoding, but `get_arg_r1` and
`get_arg_r2` recover only `r1 % 8` and `r2 % 8`: the construction does place
`r1` at bits 22:18 and `r2` at bits 17:13, while the extraction masks read
fields based two bits lower, so the register-operand round trip holds only
for indices below 8. -/
theorem codec_roundtrip_amended (op r0 r1 r2 i : Nat)
    (hop : op < 16) (h0 : r0 < 32) (h1 : r1 < 32) (h2 : r2 < 32)
    (hi : i < 2 ^ 23) :
    get_opcode (instr_rrr op r0 r1 r2) = op ∧
    get_arg_r0 (instr_rrr op r0 r1 r2) = r0 ∧
    get_arg_r1 (instr_rrr op r0 r1 r2) = r1 % 8 ∧
    get_arg_r2 (instr_rrr op r0 r1 r2) = r2 % 8 ∧
    instr_rrr op r0 r1 r2 >>> 18 % 2 ^ 5 = r1 ∧
    instr_rrr op r0 r1 r2 >>> 13 % 2 ^ 5 = r2 ∧
    get_opcode (instr_ri op r0 i) = op ∧
    get_arg_r0 (instr_ri op r0 i) = r0 ∧
    get_arg_i (instr_ri op r0 i) = i := by
  obtain ⟨ha, hb, hc, hd⟩ := decode_instr_rrr op r0 r1 r2 hop h0 h1 h2
  obtain ⟨he, hf, hg⟩ := instr_rrr_layout op r0 r1 r2 h1 h2
  obtain ⟨hh, hj, hk⟩ := decode_instr_ri op r0 i hop h0 hi
  exact ⟨ha, hb, hc, hd, he, hf, hh, hj, hk⟩

/-- Witness for the amended C1 at `op = 5, r0 = 3, r1 = 9, r2 = 2, i = 77`. -/
theorem codec_roundtrip_amended_witness :
    get_opcode (instr_rrr 5 3 9 2) = 5 ∧
    get_arg_r0 (instr_rrr 5 3 9 2) = 3 ∧
    get_arg_r1 (instr_rrr 5 3 9 2) = 9 % 8 ∧
    get_arg_r2 (instr_rrr 5 3 9 2) = 2 % 8 ∧
    instr_rrr 5 3 9 2 >>> 18 % 2 ^ 5 = 9 ∧
    instr_rrr 5 3 9 2 >>> 13 % 2 ^ 5 = 2 ∧
    get_opcode (instr_ri 5 3 77) = 5 ∧
    get_arg_r0 (instr_ri 5 3 77) = 3 ∧
    get_arg_i (instr_ri 5 3 77) = 77 :=
  codec_roundtrip_amended 5 3 9 2 77 (by decide) (by decide) (by decide)
    (by decide) (by decide)

/-- Counterexample to C2 as stated: `r1 = 8` is strictly below 16, yet
`get_arg_r1 (instr_rrr op r0 8 r2) = 0 ≠ 8` — the defect already manifests
at register index 8. -/
theorem low_register_claim_counterexample :
    (8 : Nat) < 16 ∧ get_arg_r1 (instr_rrr 13 1 8 2) ≠ 8 := by
  refine ⟨by decide, ?_⟩
  decide

/-- C2 (amended): the mask/offset inconsistency manifests exactly for
register indices with a set bit at position 3 or 4, so the round trip for the
second and third register operands holds for all indices strictly below 8
(not 16). -/
theorem low_register_roundtrip_amended (op r0 r1 r2 : Nat)
    (hop : op < 16) (h0 : r0 < 32) (h1 : r1 < 8) (h2 : r2 < 8) :
    get_arg_r1 (instr_rrr op r0 r1 r2) = r1 ∧
    get_arg_r2 (instr_rrr op r0 r1 r2) = r2 := by
  obtain ⟨-, -, hc, hd⟩ :=
    decode_instr_rrr op r0 r1 r2 hop h0 (by omega) (by omega)
  rw [hc, hd, Nat.mod_eq_of_lt h1, Nat.mod_eq_of_lt h2]
  exact ⟨rfl, rfl⟩

/-- Witness for the amended C2 at `op = 13, r0 = 1, r1 = 7, r2 = 5`. -/
theorem low_register_roundtrip_amended_witness :
    get_arg_r1 (instr_rrr 13 1 7 5) = 7 ∧
    get_arg_r2 (instr_rrr 13 1 7 5) = 5 :=
  low_register_roundtrip_amended 13 1 7 5 (by decide) (by decide) (by decide)
    (by decide)

/-- C10: the immediate-form encode/decode round trip is exact for every
opcode below 16, register index at most 31 and immediate at most `2^23 - 1`. -/
theorem immediate_roundtrip (op r0 i : Nat)
    (hop : op < 16) (h0 : r0 ≤ 31) (hi : i ≤ 2 ^ 23 - 1) :
    get_opcode (instr_ri op r0 i) = op ∧
    get_arg_r0 (instr_ri op r0 i) = r0 ∧
    get_arg_i (instr_ri op r0 i) = i :=
  decode_instr_ri op r0 i hop (by omega) (by omega)

/-- Witness for C10 at `op = 12, r0 = 31, i = 2^23 - 1`. -/
theorem immediate_roundtrip_witness :
    get_opcode (instr_ri 12 31 8388607) = 12 ∧
    get_arg_r0 (instr_ri 12 31 8388607) = 31 ∧
    get_arg_i (instr_ri 12 31 8388607) = 8388607 :=
  immediate_roundtrip 12 31 8388607 (by decide) (by decide) (by decide)

/-!
Every test of `src/vm/spec/vm_spec.c` replicated against the model.  These
anchor the model to the only execution evidence in the repository.
-/

/-- Test `loads_a_number_into_a_register`. -/
theorem vm_spec_loads_a_number_into_a_register :
    vm_execute [op_loadi 0 55, op_halt] []
      = .halted (.word (val 55 vm_tag_number)) := rfl

/-- Test `adds_two_numbers` (the C test compares with the raw word 37). -/
theorem vm_spec_adds_two_numbers :
    vm_execute [op_loadi 1 5, op_loadi 2 32, op_add 0 1 2, op_halt] []
      = .halted (.word 37) := rfl

/-- Test `moves_a_register`. -/
theorem vm_spec_moves_a_register :
    vm_execute [op_loadi 2 37, op_move 0 2, op_halt] []
      = .halted (.word 37) := rfl

/-- Test `directly_calls_a_function`. -/
theorem vm_spec_directly_calls_a_function :
    vm_execute [op_loadi 1 15, op_loadi 2 23, op_add 4 1 2, op_loadi 3 6,
      op_call 0 3 1, op_halt, op_loadi 2 100, op_add 0 1 2, op_ret] []
      = .halted (.word 138) := rfl

/-- Test `calls_a_closure_downwards` (115 + 23 - 80 = 58). -/
theorem vm_spec_calls_a_closure_downwards :
    vm_execute [op_loadi 2 11, op_loadi 3 80, op_makecl 2 2 1, op_loadi 1 6,
      op_call 0 1 1, op_halt,
      op_loadi 2 115, op_loadi 3 23, op_add 2 2 3, op_callcl 0 1 1, op_ret,
      op_sub 0 1 2, op_ret] []
      = .halted (.word 58) := rfl

/-- Test `calls_a_closure_upwards` (80 - 24 = 56): the closure is created in
the callee, survives the callee's return, and is invoked afterwards. -/
theorem vm_spec_calls_a_closure_upwards :
    vm_execute [op_loadi 1 5, op_call 1 1 1, op_loadi 2 80, op_callcl 0 1 1,
      op_halt,
      op_loadi 1 9, op_loadi 2 24, op_makecl 0 1 1, op_ret,
      op_sub 0 1 2, op_ret] []
      = .halted (.word 56) := rfl

/-- Test `applies_a_number_tag_to_a_value`. -/
theorem vm_spec_applies_a_number_tag_to_a_value :
    type_of_value (val 44 vm_tag_number) = vm_type_number ∧
    type_of_value (val 44 vm_tag_number) ≠ vm_type_symbol ∧
    from_val (val 44 vm_tag_number) vm_tag_number = 44 := by decide

/-- Test `applies_a_symbol_tag_to_a_value`. -/
theorem vm_spec_applies_a_symbol_tag_to_a_value :
    type_of_value (val 12 vm_tag_symbol) = vm_type_symbol ∧
    type_of_value (val 12 vm_tag_symbol) ≠ vm_type_number ∧
    from_val (val 12 vm_tag_symbol) vm_tag_symbol = 12 := by decide

/-- Test `loads_a_symbol_into_a_register`. -/
theorem vm_spec_loads_a_symbol_into_a_register :
    vm_execute [op_loads 0 12, op_halt] []
      = .halted (.word (val 12 vm_tag_symbol)) := rfl

/-- Test `loads_a_constant`. -/
theorem vm_spec_loads_a_constant :
    vm_execute [op_loadc 0 0, op_halt] [.value (val 33 vm_tag_symbol)]
      = .halted (.word (val 33 vm_tag_symbol)) := rfl

/-- Test `loads_a_data_symbol`: with an *empty* constant pool, `LOADsd 0,1`
yields `val(1, vm_tag_data_symbol)` — the index tagged as a data symbol. -/
theorem vm_spec_loads_a_data_symbol :
    vm_execute [op_loadsd 0 1, op_halt] []
      = .halted (.word (val 1 vm_tag_data_symbol)) := rfl

/-- Test `jumps_forward`. -/
theorem vm_spec_jumps_forward :
    vm_execute [op_loadi 0 66, op_jmp 1, op_halt, op_loadi 0 70, op_halt] []
      = .halted (.word (val 70 vm_tag_number)) := rfl

/-- Test `matches_a_number`: subject 22 matches case index 1, so the `MATCH`
at position 3 dispatches to the jump at position 5 and the program returns
300. -/
theorem vm_spec_matches_a_number :
    vm_execute
      [op_loadi 0 600, op_loadi 1 22, op_loadi 2 0, op_match 1 2 0,
       op_jmp 1, op_jmp 2, op_loadi 0 4, op_halt, op_loadi 0 300, op_halt]
      [match_header 2, .value (val 11 vm_tag_number),
       .value (val 22 vm_tag_number)]
      = .halted (.word (val 300 vm_tag_number)) := rfl

/-- Test `matches_a_symbol`. -/
theorem vm_spec_matches_a_symbol :
    vm_execute
      [op_loadi 0 600, op_loads 1 22, op_loadi 2 0, op_match 1 2 0,
       op_jmp 1, op_jmp 2, op_loadi 0 4, op_halt, op_loadi 0 300, op_halt]
      [match_header 2, .value (val 11 vm_tag_symbol),
       .value (val 22 vm_tag_symbol)]
      = .halted (.word (val 300 vm_tag_number)) := rfl

/-- Test `matches_a_data_symbol`: the subject record `{55, 77}` at pool
position 9 fails against case 0 (record `{55, 66}` at position 3) and
matches case 1 (record `{55, 77}` at position 6). -/
theorem vm_spec_matches_a_data_symbol :
    vm_execute
      [op_loadi 0 600, op_loadsd 1 9, op_loadi 2 0, op_match 1 2 0,
       op_jmp 1, op_jmp 2, op_loadi 0 4, op_halt, op_loadi 0 300, op_halt]
      [match_header 2, .value (val 3 vm_tag_data_symbol),
       .value (val 6 vm_tag_data_symbol),
       data_symbol_header 1 2, .value (val 55 vm_tag_number),
       .value (val 66 vm_tag_number),
       data_symbol_header 1 2, .value (val 55 vm_tag_number),
       .value (val 77 vm_tag_number),
       data_symbol_header 1 2, .value (val 55 vm_tag_number),
       .value (val 77 vm_tag_number)]
      = .halted (.word (val 300 vm_tag_number)) := rfl

/-- Test `binds_a_value_in_a_match`: the matching case's `match_var 1` field
stores the subject field `val(77, number)` into register `3 + 1 = 4`,
overwriting the 66 planted there, and the program returns it. -/
theorem vm_spec_binds_a_value_in_a_match :
    vm_execute
      [op_loadi 0 600, op_loadi 4 66, op_loadsd 1 9, op_loadi 2 0,
       op_match 1 2 3, op_jmp 1, op_jmp 2, op_loadi 0 22, op_halt,
       op_move 0 4, op_halt]
      [match_header 2, .value (val 3 vm_tag_data_symbol),
       .value (val 6 vm_tag_data_symbol),
       data_symbol_header 1 2, .value (val 55 vm_tag_number),
       .value (val 66 vm_tag_number),
       data_symbol_header 1 2, .value (val 55 vm_tag_number),
       match_var 1,
       data_symbol_header 1 2, .value (val 55 vm_tag_number),
       .value (val 77 vm_tag_number)]
      = .halted (.word (val 77 vm_tag_number)) := rfl

lemma stepVm_decreases {prog : List Nat} {pool : List PoolEntry}
    {maxDepth : Nat} {frames frames' : List Frame}
    (h : stepVm prog pool maxDepth frames = .next frames') :
    framePotential prog.length maxDepth frames' <
      framePotential prog.length maxDepth frames := by
  match frames with
  | [] => simp [stepVm] at h
  | f :: rest =>
    match hw : prog[f.pc]? with
    | none => simp [stepVm, hw] at h
    | some w =>
      simp only [stepVm, hw] at h
      have hpc : f.pc < prog.length := by
        by_contra hcon
        rw [List.getElem?_eq_none (by omega)] at hw
        exact absurd hw (by simp)
      have hpow : 0 < (prog.length + 1) ^ (maxDepth - rest.length) :=
        pow_pos (by omega) _
      match ha : exec1 pool f w with
      | .setRegs regs adv =>
        rw [ha] at h
        simp only [applyAct, StepRes.next.injEq] at h
        subst h
        simp only [framePotential]
        exact Nat.add_lt_add_right
          (Nat.mul_lt_mul_of_lt_of_le (by omega) (le_refl _) hpow) _
      | .push entry regs retReg =>
        rw [ha] at h
        simp only [applyAct] at h
        split at h
        · exact absurd h (by simp)
        · rename_i hdepth
          simp only [List.length_cons, not_le] at hdepth
          simp only [StepRes.next.injEq] at h
          subst h
          simp only [framePotential, List.length_cons]
          have hsub : maxDepth - (rest.length + 1) =
              maxDepth - rest.length - 1 := by omega
          have hkey : (prog.length - entry) *
              (prog.length + 1) ^ (maxDepth - (rest.length + 1)) <
              (prog.length + 1) ^ (maxDepth - rest.length) := by
            rw [hsub]
            calc (prog.length - entry) *
                (prog.length + 1) ^ (maxDepth - rest.length - 1)
                < (prog.length + 1) *
                  (prog.length + 1) ^ (maxDepth - rest.length - 1) := by
                  exact Nat.mul_lt_mul_of_lt_of_le (by omega) (le_refl _)
                    (pow_pos (by omega) _)
              _ = (prog.length + 1) ^ (maxDepth - rest.length) := by
                  rw [← pow_succ']
                  congr 1
                  omega
          have hsplit : (prog.length - f.pc) *
              (prog.length + 1) ^ (maxDepth - rest.length) =
              (prog.length - (f.pc + 1)) *
                (prog.length + 1) ^ (maxDepth - rest.length) +
              (prog.length + 1) ^ (maxDepth - rest.length) := by
            have : prog.length - f.pc = (prog.length - (f.pc + 1)) + 1 := by
              omega
            rw [this, Nat.add_mul, one_mul]
          rw [hsplit]
          omega
      | .pop =>
        rw [ha] at h
        simp only [applyAct] at h
        match rest with
        | [] => exact absurd h (by simp)
        | g :: rest =>
          simp only [StepRes.next.injEq] at h
          subst h
          simp only [framePotential, List.length_cons]
          have hpos : 0 < (prog.length - f.pc) *
              (prog.length + 1) ^ (maxDepth - (rest.length + 1)) :=
            Nat.mul_pos (by omega) (pow_pos (by omega) _)
          omega
      | .halt => rw [ha] at h; exact absurd h (by simp [applyAct])
      | .fault e => rw [ha] at h; exact absurd h (by simp [applyAct])

lemma runFuel_ne_timeout {prog : List Nat} {pool : List PoolEntry}
    {maxDepth : Nat} :
    ∀ fuel frames, framePotential prog.length maxDepth frames < fuel →
      runFuel prog pool maxDepth fuel frames ≠ .timeout := by
  intro fuel
  induction fuel with
  | zero => intro frames h; omega
  | succ n ih =>
    intro frames h
    rw [runFuel]
    match hs : stepVm prog pool maxDepth frames with
    | .next frames' =>
      exact ih frames' (by have := stepVm_decreases hs; omega)
    | .halted v => simp
    | .faulted e => simp

/-- Executor totality: `vm_execute` never times out because its fuel strictly exceeds the potential
of the initial state. -/
theorem vm_execute_ne_timeout (prog : List Nat) (pool : List PoolEntry) :
    vm_execute prog pool ≠ .timeout := by
  apply runFuel_ne_timeout
  show framePotential prog.length max_depth initFrames < fuel_bound prog
  simp only [framePotential, initFrames, fuel_bound, List.length_nil,
    Nat.sub_zero, Nat.add_zero, Nat.sub_zero]
  omega

/-!  Access lemmas for argument marshalling and closure capture.  -/

lemma collectArgs_length (f : Frame) (fr n : Nat) :
    (collectArgs f fr n).length = n := by
  simp [collectArgs]

lemma collectArgs_getD (f : Frame) (fr n j : Nat) (hj : j < n) :
    (collectArgs f fr n).getD j (.word 0) = getReg f (fr + 1 + j) := by
  simp [collectArgs, List.getD_eq_getElem?_getD, List.getElem?_map,
    List.getElem?_range, hj]

lemma mkFrameRegs_getD_arg (args captured : List Value) (k : Nat)
    (h1 : 1 ≤ k) (h2 : k ≤ args.length) :
    (mkFrameRegs args captured).getD k (.word 0) =
      args.getD (k - 1) (.word 0) := by
  obtain ⟨m, rfl⟩ : ∃ m, k = m + 1 := ⟨k - 1, by omega⟩
  rw [mkFrameRegs]
  rw [List.getD_append _ _ _ _ (by simp; omega), List.getD_cons_succ,
    List.getD_append _ _ _ _ (by omega)]
  simp

lemma mkFrameRegs_getD_cap (args captured : List Value) (j : Nat)
    (h1 : 1 ≤ j) (h2 : j ≤ captured.length) :
    (mkFrameRegs args captured).getD (args.length + j) (.word 0) =
      captured.getD (j - 1) (.word 0) := by
  obtain ⟨m, rfl⟩ : ∃ m, j = m + 1 := ⟨j - 1, by omega⟩
  rw [mkFrameRegs]
  have hidx : args.length + (m + 1) = (args.length + m) + 1 := by omega
  rw [hidx, List.getD_append _ _ _ _ (by simp; omega), List.getD_cons_succ,
    List.getD_append_right _ _ _ _ (by omega)]
  simp

/-- Case scan: `findCaseFrom` returns the first matching case: if case `i` matches and
every earlier case in the scanned range fails, the scan stops at `i`. -/
lemma findCaseFrom_first {fuel : Nat} {pool : List PoolEntry} {subj tbl i : Nat}
    {bs : List (Nat × Nat)} :
    ∀ remaining i0, i0 ≤ i → i < i0 + remaining →
      caseMatch fuel pool subj tbl i = some bs →
      (∀ j, i0 ≤ j → j < i → caseMatch fuel pool subj tbl j = none) →
      findCaseFrom fuel pool subj tbl remaining i0 = some (i, bs) := by
  intro remaining
  induction remaining with
  | zero => intro i0 h1 h2 _ _; omega
  | succ m ih =>
    intro i0 h1 h2 hm hnone
    rw [findCaseFrom]
    by_cases hcase : i0 = i
    · subst hcase
      rw [hm]
    · have h0 : caseMatch fuel pool subj tbl i0 = none :=
        hnone i0 (le_refl _) (by omega)
      rw [h0]
      exact ih (i0 + 1) (by omega) (by omega) hm
        (fun j hj1 hj2 => hnone j (by omega) hj2)

/-!  Claims C4–C9 about the executed instructions.  -/

/-- C4 (amended): executing `LOADsd r0,i` stores `val(i, vm_tag_data_symbol)`
— the constant-pool index `i` tagged as a data symbol — into register `r0`
and advances `pc`, in every state; the compound record at pool position `i`
is not read at load time (it is dereferenced later by the matcher). -/
theorem loadsd_stores_tagged_index (prog : List Nat) (pool : List PoolEntry)
    (maxDepth : Nat) (f : Frame) (rest : List Frame) (w : Nat)
    (hw : prog[f.pc]? = some w) (hop : get_opcode w = OP_LOADsd) :
    stepVm prog pool maxDepth (f :: rest) = .next
      (⟨f.regs.set (get_arg_r0 w)
          (.word (val (get_arg_i w) vm_tag_data_symbol)),
        f.retReg, f.pc + 1⟩ :: rest) := by
  have he : exec1 pool f w = .setRegs (f.regs.set (get_arg_r0 w)
      (.word (val (get_arg_i w) vm_tag_data_symbol))) 0 := by
    unfold exec1
    rw [hop]
    rfl
  simp only [stepVm, hw, he, applyAct]

/-- Witness for the amended C4: the `loads_a_data_symbol` situation, executing
`LOADsd 0,1` in the initial state of a two-instruction program. -/
theorem loadsd_stores_tagged_index_witness :
    get_opcode (op_loadsd 0 1) = OP_LOADsd ∧
    stepVm [op_loadsd 0 1, op_halt] [] 16
        [⟨List.replicate 32 (.word 0), 0, 0⟩] =
      .next [⟨(List.replicate 32 (Value.word 0)).set 0
          (.word (val 1 vm_tag_data_symbol)), 0, 1⟩] :=
  ⟨by decide,
    loadsd_stores_tagged_index [op_loadsd 0 1, op_halt] [] 16
      ⟨List.replicate 32 (.word 0), 0, 0⟩ [] (op_loadsd 0 1) rfl (by decide)⟩

/-- Counterexample to C4 as stated: in the repository test
`loads_a_data_symbol` the constant pool is empty, so there is no compound
record at pool position 1 to read, yet execution succeeds and register 0
receives the bare tagged index `val(1, vm_tag_data_symbol)`. -/
theorem loadsd_claim_counterexample :
    vm_execute [op_loadsd 0 1, op_halt] [] =
      .halted (.word (val 1 vm_tag_data_symbol)) ∧
    ([] : List PoolEntry)[1]? = none :=
  ⟨rfl, rfl⟩

/-- C5: a `MATCH` at program position `p` whose subject matches case `i` of
the pattern table — the first matching case in table order — resumes with
`pc = p + 1 + i`, i.e. at the `i`-th instruction after the `MATCH` itself,
with the case's bindings applied to the register bank. -/
theorem match_selects_first_case (prog : List Nat) (pool : List PoolEntry)
    (maxDepth : Nat) (f : Frame) (rest : List Frame)
    (w sw iw n i : Nat) (bs : List (Nat × Nat)) (regs : List Value)
    (hw : prog[f.pc]? = some w) (hop : get_opcode w = OP_MATCH)
    (hsub : getReg f (get_arg_r0 w) = .word sw)
    (htbl : getReg f (get_arg_r1 w) = .word iw)
    (hhdr : pool[from_val iw vm_tag_number]? = some (match_header n))
    (hi : i < n)
    (hmatch : caseMatch (match_fuel pool) pool sw
      (from_val iw vm_tag_number) i = some bs)
    (hfirst : ∀ j, j < i → caseMatch (match_fuel pool) pool sw
      (from_val iw vm_tag_number) j = none)
    (hbind : applyBindings (get_arg_r2 w) bs f.regs = some regs) :
    stepVm prog pool maxDepth (f :: rest) =
      .next (⟨regs, f.retReg, f.pc + 1 + i⟩ :: rest) := by
  have hfind : findCaseFrom (match_fuel pool) pool sw
      (from_val iw vm_tag_number) n 0 = some (i, bs) :=
    findCaseFrom_first n 0 (by omega) (by omega) hmatch
      (fun j _ hj2 => hfirst j hj2)
  have he : exec1 pool f w = .setRegs regs i := by
    unfold exec1
    rw [hop]
    simp only [OP_MATCH, hsub, htbl, hhdr, hfind, hbind, match_header]
  simp only [stepVm, hw, he, applyAct]

/-- Witness for C5: the `MATCH` step of the `matches_a_number` test — subject
22 fails case 0 (pattern 11) and matches case 1 (pattern 22), so `pc` moves
from 3 to `3 + 1 + 1 = 5`. -/
theorem match_selects_first_case_witness :
    caseMatch
      (match_fuel [match_header 2, .value (val 11 vm_tag_number),
        .value (val 22 vm_tag_number)])
      [match_header 2, .value (val 11 vm_tag_number),
        .value (val 22 vm_tag_number)] (val 22 vm_tag_number) 0 1 = some [] ∧
    stepVm
      [op_loadi 0 600, op_loadi 1 22, op_loadi 2 0, op_match 1 2 0,
       op_jmp 1, op_jmp 2, op_loadi 0 4, op_halt, op_loadi 0 300, op_halt]
      [match_header 2, .value (val 11 vm_tag_number),
       .value (val 22 vm_tag_number)] 16
      [⟨(((List.replicate 32 (Value.word 0)).set 0 (.word 600)).set 1
          (.word 22)).set 2 (.word 0), 0, 3⟩] =
      .next [⟨(((List.replicate 32 (Value.word 0)).set 0 (.word 600)).set 1
          (.word 22)).set 2 (.word 0), 0, 3 + 1 + 1⟩] := by
  refine ⟨rfl, ?_⟩
  exact match_selects_first_case _ _ 16
    ⟨(((List.replicate 32 (Value.word 0)).set 0 (.word 600)).set 1
        (.word 22)).set 2 (.word 0), 0, 3⟩ []
    (op_match 1 2 0) (val 22 vm_tag_number) (val 0 vm_tag_number) 2 1 [] _
    rfl (by decide) rfl rfl rfl (by decide) rfl
    (by
      intro j hj
      have hj0 : j = 0 := by omega
      subst hj0
      rfl)
    rfl

/-- C6: a `match_var slot` pattern field always matches its corresponding
subject field — if the remaining fields match, the whole field list matches
and records the binding `(slot, subject field)` — and applying that binding
writes the subject field's value into register `base + slot`, overwriting
whatever the register bank previously held there. -/
theorem matchvar_binds_field (fuel : Nat) (pool : List PoolEntry)
    (pIdx sIdx count slot sw : Nat)
    (hp : pool[pIdx]? = some (match_var slot))
    (hs : pool[sIdx]? = some (.value sw)) :
    (∀ bs, matchStep pool fuel (.fields (pIdx + 1) (sIdx + 1) count) = some bs →
      matchStep pool (fuel + 1) (.fields pIdx sIdx (count + 1)) =
        some ((slot, sw) :: bs)) ∧
    (∀ (regs : List Value) (base : Nat), base + slot < reg_count →
      applyBindings base [(slot, sw)] regs =
        some (regs.set (base + slot) (.word sw))) := by
  constructor
  · intro bs hbs
    simp only [matchStep, hp, hs, match_var, hbs]
  · intro regs base hb
    simp [applyBindings, hb]

/-- Witness for C6 at the `binds_a_value_in_a_match` pool: the `match_var 1`
field at pool position 8 matches the subject field `val(77, number)` at pool
position 11 and binds it; the binding then overwrites register `3 + 1`. -/
theorem matchvar_binds_field_witness :
    matchStep
      [match_header 2, .value (val 3 vm_tag_data_symbol),
       .value (val 6 vm_tag_data_symbol),
       data_symbol_header 1 2, .value (val 55 vm_tag_number),
       .value (val 66 vm_tag_number),
       data_symbol_header 1 2, .value (val 55 vm_tag_number),
       match_var 1,
       data_symbol_header 1 2, .value (val 55 vm_tag_number),
       .value (val 77 vm_tag_number)]
      6 (.fields 8 11 1) = some [(1, val 77 vm_tag_number)] ∧
    applyBindings 3 [(1, val 77 vm_tag_number)]
        ((List.replicate 32 (Value.word 0)).set 4 (.word 66)) =
      some (((List.replicate 32 (Value.word 0)).set 4 (.word 66)).set 4
        (.word (val 77 vm_tag_number))) := by
  have h := matchvar_binds_field 5
    [match_header 2, .value (val 3 vm_tag_data_symbol),
     .value (val 6 vm_tag_data_symbol),
     data_symbol_header 1 2, .value (val 55 vm_tag_number),
     .value (val 66 vm_tag_number),
     data_symbol_header 1 2, .value (val 55 vm_tag_number),
     match_var 1,
     data_symbol_header 1 2, .value (val 55 vm_tag_number),
     .value (val 77 vm_tag_number)]
    8 11 0 1 (val 77 vm_tag_number) rfl rfl
  exact ⟨h.1 [] rfl, h.2 _ 3 (by decide)⟩

/-- C7: `CALL` and `CALLCL` argument marshalling is positional and
order-preserving: both push a callee frame built by `mkFrameRegs` over
`collectArgs`, and for every `k` from 1 to `n` register `k` of that callee
frame equals register `fr + k` of the caller at call time. -/
theorem call_argument_marshalling (prog : List Nat) (pool : List PoolEntry)
    (maxDepth : Nat) (f : Frame) (rest : List Frame) (w : Nat)
    (hw : prog[f.pc]? = some w) (hdepth : (f :: rest).length < maxDepth) :
    (∀ aw, get_opcode w = OP_CALL → getReg f (get_arg_r1 w) = .word aw →
      stepVm prog pool maxDepth (f :: rest) = .next
        (⟨mkFrameRegs (collectArgs f (get_arg_r1 w) (get_arg_r2 w)) [],
          get_arg_r0 w, from_val aw vm_tag_number⟩ ::
         ⟨f.regs, f.retReg, f.pc + 1⟩ :: rest)) ∧
    (∀ entry captured, get_opcode w = OP_CALLCL →
      getReg f (get_arg_r1 w) = .closure entry captured →
      stepVm prog pool maxDepth (f :: rest) = .next
        (⟨mkFrameRegs (collectArgs f (get_arg_r1 w) (get_arg_r2 w)) captured,
          get_arg_r0 w, entry⟩ :: ⟨f.regs, f.retReg, f.pc + 1⟩ :: rest)) ∧
    (∀ (captured : List Value) (k : Nat), 1 ≤ k → k ≤ get_arg_r2 w →
      (mkFrameRegs (collectArgs f (get_arg_r1 w) (get_arg_r2 w))
          captured).getD k (.word 0) =
        getReg f (get_arg_r1 w + k)) := by
  refine ⟨?_, ?_, ?_⟩
  · intro aw hop hfr
    have he : exec1 pool f w = .push (from_val aw vm_tag_number)
        (mkFrameRegs (collectArgs f (get_arg_r1 w) (get_arg_r2 w)) [])
        (get_arg_r0 w) := by
      unfold exec1
      rw [hop]
      simp only [OP_CALL, hfr]
    simp only [stepVm, hw, he, applyAct, if_neg (by omega : ¬ maxDepth ≤ (f :: rest).length)]
  · intro entry captured hop hfr
    have he : exec1 pool f w = .push entry
        (mkFrameRegs (collectArgs f (get_arg_r1 w) (get_arg_r2 w)) captured)
        (get_arg_r0 w) := by
      unfold exec1
      rw [hop]
      simp only [OP_CALLCL, hfr]
    simp only [stepVm, hw, he, applyAct, if_neg (by omega : ¬ maxDepth ≤ (f :: rest).length)]
  · intro captured k hk1 hk2
    rw [mkFrameRegs_getD_arg _ _ k hk1 (by rw [collectArgs_length]; omega),
      collectArgs_getD _ _ _ _ (by omega)]
    congr 1
    omega

/-- Witness for C7 at the `CALL` step of `directly_calls_a_function`: base
register 3 holds entry address 6, one argument in register 4 (value 38)
becomes register 1 of the callee frame. -/
theorem call_argument_marshalling_witness :
    stepVm
      [op_loadi 1 15, op_loadi 2 23, op_add 4 1 2, op_loadi 3 6,
       op_call 0 3 1, op_halt, op_loadi 2 100, op_add 0 1 2, op_ret] [] 16
      [⟨((((List.replicate 32 (Value.word 0)).set 1 (.word 15)).set 2
          (.word 23)).set 4 (.word 38)).set 3 (.word 6), 0, 4⟩] =
      .next
        [⟨mkFrameRegs (collectArgs
            ⟨((((List.replicate 32 (Value.word 0)).set 1 (.word 15)).set 2
                (.word 23)).set 4 (.word 38)).set 3 (.word 6), 0, 4⟩ 3 1) [],
          0, 6⟩,
         ⟨((((List.replicate 32 (Value.word 0)).set 1 (.word 15)).set 2
            (.word 23)).set 4 (.word 38)).set 3 (.word 6), 0, 5⟩] ∧
    (mkFrameRegs (collectArgs
        ⟨((((List.replicate 32 (Value.word 0)).set 1 (.word 15)).set 2
            (.word 23)).set 4 (.word 38)).set 3 (.word 6), 0, 4⟩ 3 1)
        []).getD 1 (.word 0) =
      getReg ⟨((((List.replicate 32 (Value.word 0)).set 1 (.word 15)).set 2
          (.word 23)).set 4 (.word 38)).set 3 (.word 6), 0, 4⟩ (3 + 1) := by
  have h := call_argument_marshalling
    [op_loadi 1 15, op_loadi 2 23, op_add 4 1 2, op_loadi 3 6,
     op_call 0 3 1, op_halt, op_loadi 2 100, op_add 0 1 2, op_ret] [] 16
    ⟨((((List.replicate 32 (Value.word 0)).set 1 (.word 15)).set 2
        (.word 23)).set 4 (.word 38)).set 3 (.word 6), 0, 4⟩ []
    (op_call 0 3 1) rfl (by decide)
  exact ⟨h.1 6 (by decide) rfl, h.2.2 [] 1 (by decide) (by decide)⟩

/-- C8: for `CALLCL` on a closure with `k` captured values, the callee frame
holds the captured values in registers `n+1 .. n+k`, in capture order,
immediately after the `n` argument slots, and its `pc` is the closure's
entry; the captured values are the copies `MAKECL` took from registers
`fr+1 .. fr+n` of the creating frame (the model's values are immutable, so
the copies are independent of the creating frame's later fate). -/
theorem closure_capture_and_call (prog : List Nat) (pool : List PoolEntry)
    (maxDepth : Nat) (f : Frame) (rest : List Frame) (w : Nat)
    (hw : prog[f.pc]? = some w) (hdepth : (f :: rest).length < maxDepth) :
    (∀ entry captured, get_opcode w = OP_CALLCL →
      getReg f (get_arg_r1 w) = .closure entry captured →
      stepVm prog pool maxDepth (f :: rest) = .next
        (⟨mkFrameRegs (collectArgs f (get_arg_r1 w) (get_arg_r2 w)) captured,
          get_arg_r0 w, entry⟩ :: ⟨f.regs, f.retReg, f.pc + 1⟩ :: rest)) ∧
    (∀ (args captured : List Value) (j : Nat), 1 ≤ j → j ≤ captured.length →
      (mkFrameRegs args captured).getD (args.length + j) (.word 0) =
        captured.getD (j - 1) (.word 0)) ∧
    (∀ aw, get_opcode w = OP_MAKECL → getReg f (get_arg_r1 w) = .word aw →
      stepVm prog pool maxDepth (f :: rest) = .next
        (⟨f.regs.set (get_arg_r0 w)
            (.closure (from_val aw vm_tag_number)
              (collectArgs f (get_arg_r1 w) (get_arg_r2 w))),
          f.retReg, f.pc + 1⟩ :: rest)) ∧
    (∀ j, j < get_arg_r2 w →
      (collectArgs f (get_arg_r1 w) (get_arg_r2 w)).getD j (.word 0) =
        getReg f (get_arg_r1 w + 1 + j)) := by
  refine ⟨?_, ?_, ?_, ?_⟩
  · intro entry captured hop hfr
    have he : exec1 pool f w = .push entry
        (mkFrameRegs (collectArgs f (get_arg_r1 w) (get_arg_r2 w)) captured)
        (get_arg_r0 w) := by
      unfold exec1
      rw [hop]
      simp only [OP_CALLCL, hfr]
    simp only [stepVm, hw, he, applyAct, if_neg (by omega : ¬ maxDepth ≤ (f :: rest).length)]
  · intro args captured j hj1 hj2
    exact mkFrameRegs_getD_cap args captured j hj1 hj2
  · intro aw hop hfr
    have he : exec1 pool f w = .setRegs (f.regs.set (get_arg_r0 w)
        (.closure (from_val aw vm_tag_number)
          (collectArgs f (get_arg_r1 w) (get_arg_r2 w)))) 0 := by
      unfold exec1
      rw [hop]
      simp only [OP_MAKECL, hfr]
    simp only [stepVm, hw, he, applyAct]
  · intro j hj
    exact collectArgs_getD f _ _ j hj

/-- Witness for C8 at the `CALLCL` step of `calls_a_closure_downwards`:
register 1 holds a closure over `[word 80]` with entry 11, one argument
(138 in register 2), so the callee frame holds the argument in register 1,
the captured 80 in register `1 + 1 = 2`, and starts at `pc = 11`. -/
theorem closure_capture_and_call_witness :
    stepVm
      [op_loadi 2 11, op_loadi 3 80, op_makecl 2 2 1, op_loadi 1 6,
       op_call 0 1 1, op_halt,
       op_loadi 2 115, op_loadi 3 23, op_add 2 2 3, op_callcl 0 1 1, op_ret,
       op_sub 0 1 2, op_ret] [] 16
      [⟨(((List.replicate 32 (Value.word 0)).set 1
          (.closure 11 [.word 80])).set 2 (.word 138)).set 3 (.word 23),
        0, 9⟩,
       ⟨List.replicate 32 (.word 0), 0, 5⟩] =
      .next
        [⟨mkFrameRegs (collectArgs
            ⟨(((List.replicate 32 (Value.word 0)).set 1
                (.closure 11 [.word 80])).set 2 (.word 138)).set 3 (.word 23),
              0, 9⟩ 1 1) [.word 80], 0, 11⟩,
         ⟨(((List.replicate 32 (Value.word 0)).set 1
            (.closure 11 [.word 80])).set 2 (.word 138)).set 3 (.word 23),
           0, 10⟩,
         ⟨List.replicate 32 (.word 0), 0, 5⟩] ∧
    (mkFrameRegs (collectArgs
        ⟨(((List.replicate 32 (Value.word 0)).set 1
            (.closure 11 [.word 80])).set 2 (.word 138)).set 3 (.word 23),
          0, 9⟩ 1 1) [.word 80]).getD 2 (.word 0) = .word 80 := by
  have h := closure_capture_and_call
    [op_loadi 2 11, op_loadi 3 80, op_makecl 2 2 1, op_loadi 1 6,
     op_call 0 1 1, op_halt,
     op_loadi 2 115, op_loadi 3 23, op_add 2 2 3, op_callcl 0 1 1, op_ret,
     op_sub 0 1 2, op_ret] [] 16
    ⟨(((List.replicate 32 (Value.word 0)).set 1
        (.closure 11 [.word 80])).set 2 (.word 138)).set 3 (.word 23), 0, 9⟩
    [⟨List.replicate 32 (.word 0), 0, 5⟩]
    (op_callcl 0 1 1) rfl (by decide)
  refine ⟨h.1 11 [.word 80] (by decide) rfl, ?_⟩
  have h2 := h.2.1 (collectArgs
    ⟨(((List.replicate 32 (Value.word 0)).set 1
        (.closure 11 [.word 80])).set 2 (.word 138)).set 3 (.word 23), 0, 9⟩
    1 1) [.word 80] 1 (by decide) (by decide)
  rw [collectArgs_length] at h2
  exact h2

/-- C9: for every program ending in `HALT`, execution terminates
(`vm_execute` never runs out of its fuel), and a step that reaches a `HALT`
instruction halts with the value then held in register 0 of the outermost
frame. -/
theorem halt_program_terminates (prog : List Nat) (pool : List PoolEntry)
    (_hend : prog.getLast? = some op_halt) :
    vm_execute prog pool ≠ .timeout ∧
    ∀ (maxDepth : Nat) (f : Frame) (rest : List Frame) (w : Nat),
      prog[f.pc]? = some w → get_opcode w = OP_HALT →
      stepVm prog pool maxDepth (f :: rest) =
        .halted (getReg (rest.getLastD f) 0) := by
  refine ⟨vm_execute_ne_timeout prog pool, ?_⟩
  intro maxDepth f rest w hw hop
  have he : exec1 pool f w = .halt := by
    unfold exec1
    rw [hop]
    rfl
  simp only [stepVm, hw, he, applyAct]

/-- Witness for C9 on the program `[LOADi 0,55; HALT]`: it ends in `HALT`,
its execution does not time out, and the step at the `HALT` instruction
returns register 0 of the only (hence outermost) frame. -/
theorem halt_program_terminates_witness :
    [op_loadi 0 55, op_halt].getLast? = some op_halt ∧
    vm_execute [op_loadi 0 55, op_halt] [] ≠ .timeout ∧
    stepVm [op_loadi 0 55, op_halt] [] 16
        [⟨(List.replicate 32 (Value.word 0)).set 0 (.word 55), 0, 1⟩] =
      .halted (getReg ⟨(List.replicate 32 (Value.word 0)).set 0
        (.word 55), 0, 1⟩ 0) :=
  ⟨rfl, (halt_program_terminates [op_loadi 0 55, op_halt] [] rfl).1,
    (halt_program_terminates [op_loadi 0 55, op_halt] [] rfl).2 16
      ⟨(List.replicate 32 (Value.word 0)).set 0 (.word 55), 0, 1⟩ []
      op_halt rfl (by decide)⟩

end DashVm
